import Mathlib

/-!
# Verification of the KGTK reader (`kgtk/join/kgtkreader.py`)

A shallow embedding of the KGTK file reader: the per-line validation state
machine (`KgtkReader.__next__`), the error-policy dispatcher
(`KgtkReader.yelp`), the auto-mode edge/node classification performed by
`KgtkReader.open`, and the record utilities `merge_columns` and `to_map`.

Python strings are embedded as Lean `String`s, Python lists as Lean `List`s,
and Python dicts as association lists in which a fresh binding is prepended,
so that `List.lookup` (first match) realizes the dict's last-write-wins
observable semantics.  Fallible code (an uncaught `IndexError`, a raised
`ValueError`) is embedded with explicit outcome constructors.
-/

set_option autoImplicit false

/-- `str.rstrip("\r\n")`: drop trailing carriage-return / line-feed characters. -/
def pyRstrip (s : String) : String :=
  ⟨(s.data.reverse.dropWhile (fun c => c == '\r' || c == '\n')).reverse⟩

/-- `str.isspace()`: non-empty and every character is whitespace. -/
def pyIsSpace (s : String) : Bool :=
  decide (s.data ≠ []) && s.data.all (fun c => c.isWhitespace)

/-- Worker for `pySplit`, with enough fuel to consume the whole character
list (the separator is non-empty in every use, so each step consumes at least
one character and the fuel is never exhausted). -/
def pySplitAux (sep : List Char) : Nat → List Char → List Char → List (List Char)
  | 0, acc, rest => [acc.reverse ++ rest]
  | _ + 1, acc, [] => [acc.reverse]
  | fuel + 1, acc, c :: cs =>
    if sep.isPrefixOf (c :: cs) then
      acc.reverse :: pySplitAux sep fuel [] (List.drop sep.length (c :: cs))
    else
      pySplitAux sep fuel (c :: acc) cs

/-- `str.split(sep)` for a non-empty separator: split on every occurrence of
`sep`, keeping empty fields (`"".split(sep) == [""]`).  An empty separator is a
`ValueError` in Python and is not modelled. -/
def pySplit (s : String) (sep : String) : List String :=
  (pySplitAux sep.data (s.data.length + 1) [] s.data).map (fun l => ⟨l⟩)

/-- Modelled from the spec: `KgtkFormat.COMMENT_INDICATOR`, "a configurable
comment marker character identifies lines to skip" — the KGTK comment marker. -/
def COMMENT_INDICATOR : Char := '#'

/-- `KgtkReaderErrorAction` (kgtkreader.py lines 20-29): how the reader
responds when an error is detected. -/
inductive KgtkReaderErrorAction where
  | SILENT
  | STDOUT
  | STDERR
  | VALUEERROR
deriving DecidableEq

/-- The `KgtkReader` state: the fields of the attrs class that the validation
state machine, the dispatcher and the record utilities read or write.
`column_name_map` is the Python dict embedded as an association list with
most-recent binding first. -/
structure KgtkReader where
  column_names : List String
  column_name_map : List (String × Nat)
  column_count : Nat
  data_lines_read : Nat := 0
  data_lines_passed : Nat := 0
  data_lines_ignored : Nat := 0
  data_errors_reported : Nat := 0
  column_separator : String := "\t"
  error_action : KgtkReaderErrorAction := .STDOUT
  error_limit : Int := 1000
  ignore_empty_lines : Bool := true
  ignore_comment_lines : Bool := true
  ignore_whitespace_lines : Bool := true
  ignore_short_lines : Bool := true
  ignore_long_lines : Bool := true
  fill_short_lines : Bool := false
  truncate_long_lines : Bool := false
deriving DecidableEq

/-- Result of one call to the error-policy dispatcher `yelp`: either control
returns to the caller (`ok`) or a `ValueError` propagates (`fatal`).  Both
carry the reader state at that moment. -/
inductive YelpResult where
  | ok (state : KgtkReader)
  | fatal (state : KgtkReader)
deriving DecidableEq

def YelpResult.state : YelpResult → KgtkReader
  | .ok s => s
  | .fatal s => s

def YelpResult.isFatal : YelpResult → Bool
  | .ok _ => false
  | .fatal _ => true

/-- `KgtkReader.yelp` (lines 377-389): increment the ignored counter, then act
on the configured error action.  `SILENT` returns at once; `VALUEERROR` raises
at once; `STDOUT`/`STDERR` print (no observable state here), increment
`data_errors_reported`, and raise `Too many data errors` when a positive
`error_limit` has been reached. -/
def KgtkReader.yelp (self : KgtkReader) (_msg _line : String) : YelpResult :=
  let s1 : KgtkReader := { self with data_lines_ignored := self.data_lines_ignored + 1 }
  match self.error_action with
  | .SILENT => .ok s1
  | .VALUEERROR => .fatal s1
  | _ =>
    let s2 : KgtkReader := { s1 with data_errors_reported := self.data_errors_reported + 1 }
    if 0 < self.error_limit ∧ self.error_limit ≤ ((self.data_errors_reported : Int) + 1) then
      .fatal s2
    else
      .ok s2

/-- Outcome of processing one raw input line in the `__next__` loop body:
the line is ignored (loop restarts), a record is accepted and returned, a
`ValueError` propagates from `yelp`, or an uncaught `IndexError` is raised by
`line[0]` on an empty line. -/
inductive LineOutcome where
  | ignored (state : KgtkReader)
  | accepted (state : KgtkReader) (values : List String)
  | fatal (state : KgtkReader)
  | crash (state : KgtkReader)
deriving DecidableEq

def LineOutcome.state : LineOutcome → KgtkReader
  | .ignored s => s
  | .accepted s _ => s
  | .fatal s => s
  | .crash s => s

def LineOutcome.acceptedValues : LineOutcome → Option (List String)
  | .accepted _ v => some v
  | _ => none

def LineOutcome.isCrash : LineOutcome → Bool
  | .crash _ => true
  | _ => false

/-- Route a validation failure through `yelp` inside the `__next__` loop:
`ok` means the `continue` statement runs, `fatal` means the exception
propagates out of `__next__`. -/
def yelpOutcome (s : KgtkReader) (msg line : String) : LineOutcome :=
  match s.yelp msg line with
  | .ok t => .ignored t
  | .fatal t => .fatal t

/-- `KgtkReader._ignore_if_blank_fields` (lines 476-477): the base class never
ignores a record for blank required fields. -/
def KgtkReader.ignoreIfBlankFields (_self : KgtkReader) (_values : List String) : Bool :=
  false

/-- Lines 437-440: "Optionally fill missing trailing columns with empty
values" — when enabled and the line is short, append empty-string fields
until the field count reaches `column_count`. -/
def fillShort (fill_short_lines : Bool) (column_count : Nat) (values : List String) : List String :=
  if fill_short_lines = true ∧ values.length < column_count then
    values ++ List.replicate (column_count - values.length) ""
  else values

/-- Lines 442-444: "Optionally remove extra trailing columns" — when enabled
and the line is long, keep only the first `column_count` fields. -/
def truncateLong (truncate_long_lines : Bool) (column_count : Nat) (values : List String) : List String :=
  if truncate_long_lines = true ∧ column_count < values.length then
    values.take column_count
  else values

/-- One iteration of the `while True` loop body of `KgtkReader.__next__`
(lines 413-473), applied to one raw line already pulled from the source:
count the line read, strip the line ending, run the pre-filters (empty,
comment, whitespace), split into fields, reconcile the width (fill-short,
truncate-long), enforce the width (short, long), check blank required fields,
and accept.  The comment check evaluates `line[0]` before consulting
`ignore_comment_lines`, so an empty line that survives the empty-line filter
raises an `IndexError` (`crash`). -/
def processLine (self : KgtkReader) (rawLine : String) : LineOutcome :=
  let s : KgtkReader := { self with data_lines_read := self.data_lines_read + 1 }
  let line := pyRstrip rawLine
  if line.length = 0 ∧ self.ignore_empty_lines = true then
    yelpOutcome s "saw an empty line" line
  else if line.length = 0 then
    .crash s
  else if line.front = COMMENT_INDICATOR ∧ self.ignore_comment_lines = true then
    yelpOutcome s "saw a comment line" line
  else if self.ignore_whitespace_lines = true ∧ pyIsSpace line = true then
    yelpOutcome s "saw a whitespace line" line
  else
    let values0 := pySplit line self.column_separator
    let values1 := fillShort self.fill_short_lines self.column_count values0
    let values2 := truncateLong self.truncate_long_lines self.column_count values1
    if self.ignore_short_lines = true ∧ values2.length < self.column_count then
      yelpOutcome s "required columns, saw fewer" line
    else if self.ignore_long_lines = true ∧ self.column_count < values2.length then
      yelpOutcome s "required columns, saw extra" line
    else if self.ignoreIfBlankFields values2 = true then
      yelpOutcome s "saw blank values in required fields" line
    else
      .accepted { s with data_lines_passed := self.data_lines_passed + 1 } values2

/-- Outcome of one full call to `KgtkReader.__next__` over the remaining
source lines: a record is returned together with the unconsumed lines, the
source is exhausted (`StopIteration`), or an exception propagates. -/
inductive RunOutcome where
  | record (state : KgtkReader) (values : List String) (rest : List String)
  | exhausted (state : KgtkReader)
  | fatal (state : KgtkReader)
  | crash (state : KgtkReader)
deriving DecidableEq

def RunOutcome.state : RunOutcome → KgtkReader
  | .record s _ _ => s
  | .exhausted s => s
  | .fatal s => s
  | .crash s => s

def RunOutcome.isFatal : RunOutcome → Bool
  | .fatal _ => true
  | _ => false

/-- `KgtkReader.__next__` (lines 397-473): loop over the remaining source
lines, ignoring filtered lines, until a record is accepted, the source is
exhausted, or an exception propagates. -/
def nextRecord (self : KgtkReader) : List String → RunOutcome
  | [] => .exhausted self
  | l :: rest =>
    match processLine self l with
    | .ignored t => nextRecord t rest
    | .accepted t v => .record t v rest
    | .fatal t => .fatal t
    | .crash t => .crash t

/-- The states visited by a sequence of at most `n` pulls (`__next__` calls)
on the reader: each accepted record leads to a further pull on the remaining
lines; exhaustion or an exception ends the sequence. -/
def pullTrace : Nat → KgtkReader → List String → List KgtkReader
  | 0, _, _ => []
  | Nat.succ n, s, lines =>
    match nextRecord s lines with
    | .record t _ rest => t :: pullTrace n t rest
    | .exhausted t => [t]
    | .fatal t => [t]
    | .crash t => [t]

/-- `KgtkReader.merge_columns` (lines 492-506): copy `column_names`, then
append each additional column name whose key is absent from
`column_name_map`. -/
def KgtkReader.merge_columns (self : KgtkReader) (additional_columns : List String) : List String :=
  additional_columns.foldl
    (fun merged_columns column_name =>
      if (self.column_name_map.lookup column_name).isSome = true then merged_columns
      else merged_columns ++ [column_name])
    self.column_names

/-- The loop of `KgtkReader.to_map` (lines 508-518): successive dict
assignments `result[column_names[idx]] = value`; `none` embeds the
`IndexError` raised when the record is longer than `column_names`. -/
def toMapAux : List String → List String → List (String × String) → Option (List (String × String))
  | [], _, result => some result
  | _ :: _, [], _ => none
  | value :: rest, name :: names, result => toMapAux rest names ((name, value) :: result)

/-- `KgtkReader.to_map` (lines 508-518): convert an input record into a
name-keyed map of fields. -/
def KgtkReader.to_map (self : KgtkReader) (line : List String) : Option (List (String × String)) :=
  toMapAux line self.column_names []

/-- Modelled from the spec: `KgtkFormat.build_column_name_map` (called at
kgtkreader.py line 147 but defined outside src/) "builds `column_name_map` by
enumerating `column_names` in order, later duplicates overwriting earlier
indices".  The dict is embedded with the most recent binding first. -/
def build_column_name_map (column_names : List String) : List (String × Nat) :=
  (column_names.enum.map (fun p => (p.2, p.1))).reverse

/-- Modelled from the spec: `KgtkFormat.NODE1_COLUMN_NAMES` (used at
kgtkreader.py line 154 but defined outside src/), the recognized alias set of
the node1 column; the spec names `node1` without enumerating further aliases. -/
def NODE1_COLUMN_NAMES : List String := ["node1"]

/-- Modelled from the spec: `KgtkFormat.get_column_idx` with `is_optional=True`
(called at kgtkreader.py line 154 but defined outside src/): "attempt to
resolve a node1-like column" — the index of the first alias present in the
column name map, `-1` when none is present. -/
def get_column_idx (aliases : List String) (column_name_map : List (String × Nat)) : Int :=
  match aliases.find? (fun a => (column_name_map.lookup a).isSome) with
  | some a => ((column_name_map.lookup a).getD 0 : Int)
  | none => -1

/-- The `Mode.AUTO` branch of `KgtkReader.open` (lines 149-156): resolve a
node1-like column; `is_edge_file` iff one was found, `is_node_file`
otherwise.  Returns `(is_edge_file, is_node_file)`. -/
def openAutoClassify (column_name_map : List (String × Nat)) : Bool × Bool :=
  let node1_idx : Int := get_column_idx NODE1_COLUMN_NAMES column_name_map
  let is_edge_file : Bool := decide (0 ≤ node1_idx)
  let is_node_file : Bool := !is_edge_file
  (is_edge_file, is_node_file)

/-- The counter invariant of the reader: every line read was counted at most
once, as passed or as ignored. -/
def CounterInv (s : KgtkReader) : Prop :=
  s.data_lines_passed + s.data_lines_ignored ≤ s.data_lines_read

/-- Pointwise order on the four running counters. -/
def countersLE (s t : KgtkReader) : Prop :=
  s.data_lines_read ≤ t.data_lines_read ∧
  s.data_lines_passed ≤ t.data_lines_passed ∧
  s.data_lines_ignored ≤ t.data_lines_ignored ∧
  s.data_errors_reported ≤ t.data_errors_reported

instance : DecidablePred CounterInv := fun s => by unfold CounterInv; infer_instance

instance (s t : KgtkReader) : Decidable (countersLE s t) := by unfold countersLE; infer_instance

/-! ## Helper lemmas about the dispatcher -/

theorem yelpOutcome_state (a : KgtkReader) (m l : String) :
    (yelpOutcome a m l).state = (a.yelp m l).state := by
  unfold yelpOutcome
  cases h : a.yelp m l <;> simp [LineOutcome.state, YelpResult.state, h]

/-- The dispatcher increments the ignored counter exactly once, increments
the reported counter by at most one, and leaves the read and passed counters
and the whole configuration unchanged. -/
theorem yelp_state_spec (s : KgtkReader) (m l : String) :
    (s.yelp m l).state.data_lines_read = s.data_lines_read ∧
    (s.yelp m l).state.data_lines_passed = s.data_lines_passed ∧
    (s.yelp m l).state.data_lines_ignored = s.data_lines_ignored + 1 ∧
    s.data_errors_reported ≤ (s.yelp m l).state.data_errors_reported ∧
    (s.yelp m l).state.data_errors_reported ≤ s.data_errors_reported + 1 := by
  unfold KgtkReader.yelp
  cases h : s.error_action <;> simp only [h] <;> (try split) <;>
    simp [YelpResult.state]

/-! ## C1: the error-limit behavior of the dispatcher -/

/-- C1 (amended): with a positive error limit, a failure dispatched under
`STDOUT` or `STDERR` increments `data_errors_reported` and escalates to a
fatal abort exactly when the incremented counter reaches the limit; under
`SILENT` the dispatcher returns early without incrementing the counter, so the
limit never triggers; under `VALUEERROR` it aborts immediately, also without
incrementing the counter. -/
theorem c1_error_limit_dispatch (s : KgtkReader) (msg line : String)
    (hlim : 0 < s.error_limit) :
    ((s.error_action = .STDOUT ∨ s.error_action = .STDERR) →
        (s.yelp msg line).state.data_errors_reported = s.data_errors_reported + 1 ∧
        ((s.yelp msg line).isFatal = true ↔
          s.error_limit ≤ (s.data_errors_reported : Int) + 1)) ∧
    (s.error_action = .SILENT →
        (s.yelp msg line).state.data_errors_reported = s.data_errors_reported ∧
        (s.yelp msg line).isFatal = false) ∧
    (s.error_action = .VALUEERROR →
        (s.yelp msg line).state.data_errors_reported = s.data_errors_reported ∧
        (s.yelp msg line).isFatal = true) := by
  unfold KgtkReader.yelp
  cases h : s.error_action <;> simp only [h] <;> (try split) <;>
    simp_all [YelpResult.state, YelpResult.isFatal]

/-- A reader with `SILENT` error action and error limit 1. -/
def silentReader : KgtkReader :=
  { column_names := ["id"]
    column_name_map := build_column_name_map ["id"]
    column_count := 1
    error_action := .SILENT
    error_limit := 1 }

/-- C1 counterexample: under `SILENT` with limit 1, the first dispatched
failure neither increments the reported-error counter nor raises a fatal
error, contrary to the claim that the counter increments regardless of the
action and that the L-th silent failure aborts. -/
theorem c1_counterexample :
    silentReader.error_action = KgtkReaderErrorAction.SILENT ∧
    silentReader.error_limit = 1 ∧
    silentReader.data_errors_reported = 0 ∧
    (silentReader.yelp "saw an empty line" "").state.data_errors_reported = 0 ∧
    (silentReader.yelp "saw an empty line" "").isFatal = false :=
  ⟨rfl, rfl, rfl, rfl, rfl⟩

/-- A reader with `STDOUT` error action, limit 2, and one error already
reported. -/
def stdoutReader : KgtkReader :=
  { column_names := ["id"]
    column_name_map := build_column_name_map ["id"]
    column_count := 1
    error_action := .STDOUT
    error_limit := 2
    data_errors_reported := 1 }

theorem c1_witness :
    (stdoutReader.yelp "e" "x").state.data_errors_reported = 2 ∧
    (stdoutReader.yelp "e" "x").isFatal = true := by
  have h := c1_error_limit_dispatch stdoutReader "e" "x" (by decide)
  have h2 := h.1 (Or.inl rfl)
  exact ⟨h2.1, h2.2.mpr (by decide)⟩

/-! ## C3: the pre-filter order and the empty-line / comment-line interaction -/

/-- A reader that does not ignore empty lines. -/
def c3Reader : KgtkReader :=
  { column_names := ["id"]
    column_name_map := build_column_name_map ["id"]
    column_count := 1
    ignore_empty_lines := false }

/-- A reader with all default toggles. -/
def c3DefaultReader : KgtkReader :=
  { column_names := ["id"]
    column_name_map := build_column_name_map ["id"]
    column_count := 1 }

/-- C3 (code bug): with empty-line ignoring enabled an empty line is consumed
by the empty-line filter before the comment check; but with empty-line
ignoring disabled, the empty line reaches the comment check, `line[0]` is
evaluated on the empty string, and the reader crashes with an uncaught
`IndexError` — so an empty line *is* inspected for its first character,
contrary to the claim's "regardless of whether empty-line ignoring is
enabled". -/
theorem c3_empty_line_crash :
    (processLine c3DefaultReader "").state.data_lines_ignored = 1 ∧
    c3Reader.ignore_empty_lines = false ∧
    (processLine c3Reader "").isCrash = true :=
  ⟨rfl, rfl, rfl⟩

/-! ## C7: auto-mode edge/node classification -/

theorem lookup_isSome_iff_mem_keys {β : Type} (l : List (String × β)) (a : String) :
    (l.lookup a).isSome = true ↔ a ∈ l.map Prod.fst := by
  induction l with
  | nil => simp [List.lookup]
  | cons p rest ih =>
    obtain ⟨k, v⟩ := p
    rw [List.lookup_cons]
    by_cases h : a = k
    · subst h
      simp
    · have hbeq : (a == k) = false := by simp [h]
      simp [hbeq, ih, h]

theorem lookup_build_column_name_map_isSome (column_names : List String) (a : String) :
    ((build_column_name_map column_names).lookup a).isSome = true ↔ a ∈ column_names := by
  rw [lookup_isSome_iff_mem_keys]
  unfold build_column_name_map
  rw [List.map_reverse, List.mem_reverse, List.map_map]
  rw [show Prod.fst ∘ (fun p : Nat × String => ((p.2, p.1) : String × Nat)) = Prod.snd from rfl]
  rw [List.enum_map_snd]

/-- C7: in `Mode.AUTO`, `open` classifies the file as an edge file iff the
resolved column names contain a node1 alias, as a node file otherwise, and
exactly one of `is_edge_file` / `is_node_file` is set. -/
theorem c7_auto_classification (column_names : List String) :
    ((openAutoClassify (build_column_name_map column_names)).1 = true ↔
      ∃ a ∈ NODE1_COLUMN_NAMES, a ∈ column_names) ∧
    (openAutoClassify (build_column_name_map column_names)).2 =
      !(openAutoClassify (build_column_name_map column_names)).1 := by
  constructor
  · unfold openAutoClassify get_column_idx
    cases hf : List.find? (fun a => ((build_column_name_map column_names).lookup a).isSome)
        NODE1_COLUMN_NAMES with
    | none =>
      rw [List.find?_eq_none] at hf
      simp only [decide_eq_true_eq]
      constructor
      · intro h
        omega
      · rintro ⟨a, ha, hmem⟩
        exact absurd ((lookup_build_column_name_map_isSome column_names a).mpr hmem) (hf a ha)
    | some a =>
      have hp := List.find?_some hf
      have hmem := List.mem_of_find?_eq_some hf
      have hin := (lookup_build_column_name_map_isSome column_names a).mp hp
      simp only [decide_eq_true_eq]
      constructor
      · intro _
        exact ⟨a, hmem, hin⟩
      · intro _
        cases hl : ((build_column_name_map column_names).lookup a) with
        | none => rw [hl] at hp; simp at hp
        | some k =>
          simp only [Option.getD_some]
          omega
  · unfold openAutoClassify
    rfl

/-! ## C8: merge_columns -/

theorem foldl_skip_or_append (p : String → Bool) (l : List String) (init : List String) :
    l.foldl (fun m c => if p c = true then m else m ++ [c]) init
      = init ++ l.filter (fun c => !p c) := by
  induction l generalizing init with
  | nil => simp
  | cons c cs ih =>
    simp only [List.foldl_cons, List.filter_cons]
    cases h : p c <;> simp [h, ih]

/-- C8 (amended): `merge_columns` returns the reader's `column_names` in their
original order followed by every occurrence, in order, of an additional name
whose key is absent from `column_name_map`; duplicate additional names absent
from the map are each appended once per occurrence (they are not
deduplicated), and `column_names` itself is not modified. -/
theorem c8_merge_columns (s : KgtkReader) (additional_columns : List String) :
    s.merge_columns additional_columns =
      s.column_names ++
        additional_columns.filter (fun c => !(s.column_name_map.lookup c).isSome) := by
  unfold KgtkReader.merge_columns
  exact foldl_skip_or_append (fun c => (s.column_name_map.lookup c).isSome)
    additional_columns s.column_names

/-- A reader with a single column `a`. -/
def c8Reader : KgtkReader :=
  { column_names := ["a"]
    column_name_map := build_column_name_map ["a"]
    column_count := 1 }

/-- C8 counterexample: merging `["x", "x"]` into a reader whose only column is
`a` appends `x` twice, so an addition can appear more than once in the result,
contrary to the claim. -/
theorem c8_counterexample :
    c8Reader.column_names.count "x" = 0 ∧
    c8Reader.merge_columns ["x", "x"] = ["a", "x", "x"] ∧
    (c8Reader.merge_columns ["x", "x"]).count "x" = 2 :=
  ⟨rfl, rfl, rfl⟩

/-! ## Helper lemmas about the per-line state machine -/

theorem yelpOutcome_ne_accepted (a : KgtkReader) (m l : String) (t : KgtkReader)
    (v : List String) :
    yelpOutcome a m l ≠ .accepted t v := by
  unfold yelpOutcome
  cases a.yelp m l <;> simp

theorem yelpOutcome_fatal_state (a : KgtkReader) (m l : String) (t : KgtkReader)
    (h : yelpOutcome a m l = .fatal t) : t = (a.yelp m l).state := by
  unfold yelpOutcome at h
  cases hy : a.yelp m l <;> rw [hy] at h <;> simp_all [YelpResult.state]

theorem yelpOutcome_fatal_spec (a : KgtkReader) (m l : String) (t : KgtkReader)
    (h : yelpOutcome a m l = .fatal t) :
    t.data_lines_read = a.data_lines_read ∧
    t.data_lines_passed = a.data_lines_passed ∧
    t.data_lines_ignored = a.data_lines_ignored + 1 ∧
    a.data_errors_reported ≤ t.data_errors_reported ∧
    t.data_errors_reported ≤ a.data_errors_reported + 1 := by
  have ht := yelpOutcome_fatal_state a m l t h
  subst ht
  exact yelp_state_spec a m l

theorem countersLE_trans (a b c : KgtkReader) (h1 : countersLE a b) (h2 : countersLE b c) :
    countersLE a c := by
  unfold countersLE at *
  omega

theorem counterInv_step (s t : KgtkReader)
    (hread : t.data_lines_read = s.data_lines_read + 1)
    (hsum : t.data_lines_passed + t.data_lines_ignored
      ≤ s.data_lines_passed + s.data_lines_ignored + 1)
    (h : CounterInv s) : CounterInv t := by
  unfold CounterInv at *
  omega

/-- Processing one line increments the read counter exactly once, increments
the passed-plus-ignored total by at most one, and never decreases any
counter — whatever the outcome. -/
theorem processLine_state_spec (s : KgtkReader) (line : String) :
    (processLine s line).state.data_lines_read = s.data_lines_read + 1 ∧
    (processLine s line).state.data_lines_passed + (processLine s line).state.data_lines_ignored
      ≤ s.data_lines_passed + s.data_lines_ignored + 1 ∧
    countersLE s (processLine s line).state := by
  have hy : ∀ (m l : String),
      (yelpOutcome { s with data_lines_read := s.data_lines_read + 1 } m l).state.data_lines_read
          = s.data_lines_read + 1 ∧
      (yelpOutcome { s with data_lines_read := s.data_lines_read + 1 } m l).state.data_lines_passed
          = s.data_lines_passed ∧
      (yelpOutcome { s with data_lines_read := s.data_lines_read + 1 } m l).state.data_lines_ignored
          = s.data_lines_ignored + 1 ∧
      s.data_errors_reported ≤
        (yelpOutcome { s with data_lines_read := s.data_lines_read + 1 } m
          l).state.data_errors_reported ∧
      (yelpOutcome { s with data_lines_read := s.data_lines_read + 1 } m
          l).state.data_errors_reported
        ≤ s.data_errors_reported + 1 := by
    intro m l
    rw [yelpOutcome_state]
    simpa using yelp_state_spec { s with data_lines_read := s.data_lines_read + 1 } m l
  simp only [processLine]
  repeat' split
  all_goals
    first
      | (obtain ⟨h1, h2, h3, h4, h5⟩ := hy _ _
         exact ⟨h1, by omega, by unfold countersLE; omega⟩)
      | (refine ⟨rfl, ?_, ?_⟩ <;> simp [LineOutcome.state, countersLE] <;> omega)

/-- One `__next__` call never decreases any counter and preserves the counter
invariant. -/
theorem nextRecord_state_spec (s : KgtkReader) (lines : List String) :
    countersLE s (nextRecord s lines).state ∧
    (CounterInv s → CounterInv (nextRecord s lines).state) := by
  induction lines generalizing s with
  | nil =>
    simp only [nextRecord, RunOutcome.state]
    exact ⟨by unfold countersLE; omega, fun h => h⟩
  | cons l ls ih =>
    obtain ⟨h1, h2, h3⟩ := processLine_state_spec s l
    simp only [nextRecord]
    cases hp : processLine s l with
    | ignored t =>
      rw [hp] at h1 h2 h3
      simp only [LineOutcome.state] at h1 h2 h3
      obtain ⟨ihLE, ihInv⟩ := ih t
      exact ⟨countersLE_trans s t _ h3 ihLE,
        fun h => ihInv (counterInv_step s t h1 h2 h)⟩
    | accepted t v =>
      rw [hp] at h1 h2 h3
      simp only [LineOutcome.state] at h1 h2 h3
      exact ⟨h3, counterInv_step s t h1 h2⟩
    | fatal t =>
      rw [hp] at h1 h2 h3
      simp only [LineOutcome.state] at h1 h2 h3
      exact ⟨h3, counterInv_step s t h1 h2⟩
    | crash t =>
      rw [hp] at h1 h2 h3
      simp only [LineOutcome.state] at h1 h2 h3
      exact ⟨h3, counterInv_step s t h1 h2⟩

/-! ## C4: counter monotonicity and the passed + ignored ≤ read invariant -/

/-- C4: along any sequence of pulls, the four counters are monotonically
non-decreasing (`countersLE` holds between consecutive states), and
`data_lines_passed + data_lines_ignored ≤ data_lines_read` holds after every
step — each line read is counted at most once, as passed or as ignored. -/
theorem c4_counter_invariants (n : Nat) (s : KgtkReader) (lines : List String)
    (h : CounterInv s) :
    (∀ t ∈ pullTrace n s lines, CounterInv t) ∧
    List.Chain' countersLE (s :: pullTrace n s lines) := by
  induction n generalizing s lines with
  | zero => simp [pullTrace]
  | succ n ih =>
    obtain ⟨hLE, hInv⟩ := nextRecord_state_spec s lines
    simp only [pullTrace]
    cases hr : nextRecord s lines with
    | record t v rest =>
      rw [hr] at hLE hInv
      simp only [RunOutcome.state] at hLE hInv
      obtain ⟨ih1, ih2⟩ := ih t rest (hInv h)
      constructor
      · intro u hu
        rcases List.mem_cons.mp hu with rfl | hu
        · exact hInv h
        · exact ih1 u hu
      · exact List.Chain'.cons hLE ih2
    | exhausted t =>
      rw [hr] at hLE hInv
      simp only [RunOutcome.state] at hLE hInv
      refine ⟨?_, List.chain'_pair.mpr hLE⟩
      intro u hu
      rcases List.mem_singleton.mp hu with rfl
      exact hInv h
    | fatal t =>
      rw [hr] at hLE hInv
      simp only [RunOutcome.state] at hLE hInv
      refine ⟨?_, List.chain'_pair.mpr hLE⟩
      intro u hu
      rcases List.mem_singleton.mp hu with rfl
      exact hInv h
    | crash t =>
      rw [hr] at hLE hInv
      simp only [RunOutcome.state] at hLE hInv
      refine ⟨?_, List.chain'_pair.mpr hLE⟩
      intro u hu
      rcases List.mem_singleton.mp hu with rfl
      exact hInv h

/-- A fresh reader over two columns, used to exercise the counter invariant. -/
def c4Reader : KgtkReader :=
  { column_names := ["node1", "node2"]
    column_name_map := build_column_name_map ["node1", "node2"]
    column_count := 2 }

theorem c4_witness :
    CounterInv c4Reader ∧
    List.Chain' countersLE (c4Reader :: pullTrace 2 c4Reader ["a\tb", "x"]) :=
  ⟨by decide, (c4_counter_invariants 2 c4Reader ["a\tb", "x"] (by decide)).2⟩

/-! ## C10: a fatal abort happens only after the offending line was counted -/

/-- C10: whenever processing a line ends in a fatal abort raised by the
dispatcher (`VALUEERROR` action, or the error limit being reached),
`data_lines_read` and `data_lines_ignored` were each incremented exactly once
for that line, `data_lines_passed` is untouched, and the counter invariant
still holds in the post-abort state. -/
theorem c10_fatal_already_counted (s t : KgtkReader) (line : String)
    (h : processLine s line = .fatal t) :
    t.data_lines_read = s.data_lines_read + 1 ∧
    t.data_lines_ignored = s.data_lines_ignored + 1 ∧
    t.data_lines_passed = s.data_lines_passed ∧
    (CounterInv s → CounterInv t) := by
  simp only [processLine] at h
  repeat' split at h
  all_goals
    first
      | (cases h)
      | (obtain ⟨h1, h2, h3, h4, h5⟩ := yelpOutcome_fatal_spec _ _ _ _ h
         simp only at h1 h2 h3 h4 h5
         refine ⟨by omega, by omega, by omega, ?_⟩
         intro hi
         unfold CounterInv at *
         omega)

/-- A reader whose error action raises a `ValueError` on the first failure. -/
def c10Reader : KgtkReader :=
  { column_names := ["id"]
    column_name_map := build_column_name_map ["id"]
    column_count := 1
    error_action := .VALUEERROR }

/-- The state carried by the fatal abort that `c10Reader` suffers on an empty
line. -/
def c10FatalState : KgtkReader :=
  (processLine c10Reader "").state

theorem c10_witness :
    processLine c10Reader "" = LineOutcome.fatal c10FatalState ∧
    c10FatalState.data_lines_read = c10Reader.data_lines_read + 1 ∧
    c10FatalState.data_lines_ignored = c10Reader.data_lines_ignored + 1 ∧
    c10FatalState.data_lines_passed = c10Reader.data_lines_passed := by
  have h := c10_fatal_already_counted c10Reader c10FatalState "" rfl
  exact ⟨rfl, h.1, h.2.1, h.2.2.1⟩

/-! ## C5: the error limit aborts the stream before a later good line -/

/-- A reader over two tab-separated columns with error limit 3 and the given
error action. -/
def mkC5Reader (error_action : KgtkReaderErrorAction) : KgtkReader :=
  { column_names := ["node1", "node2"]
    column_name_map := build_column_name_map ["node1", "node2"]
    column_count := 2
    error_action := error_action
    error_limit := 3 }

/-- C5: with error limit 3, any non-`SILENT` error action, and an input whose
first three data lines are malformed (here: short lines dispatched as
validation failures) followed by any fourth line, iteration aborts fatally —
the fourth line is never returned, well formed or not.  (Under `STDOUT` and
`STDERR` the third failure reaches the limit; under `VALUEERROR` the first
failure aborts at once.) -/
theorem c5_error_limit_abort (action : KgtkReaderErrorAction)
    (h : action ≠ KgtkReaderErrorAction.SILENT) (l4 : String) :
    (nextRecord (mkC5Reader action) ["a", "a", "a", l4]).isFatal = true := by
  cases action with
  | SILENT => exact absurd rfl h
  | STDOUT => rfl
  | STDERR => rfl
  | VALUEERROR => rfl

theorem c5_witness :
    KgtkReaderErrorAction.STDOUT ≠ KgtkReaderErrorAction.SILENT ∧
    (nextRecord (mkC5Reader KgtkReaderErrorAction.STDOUT)
      ["a", "a", "a", "b\tc"]).isFatal = true :=
  ⟨by decide, c5_error_limit_abort KgtkReaderErrorAction.STDOUT (by decide) "b\tc"⟩

/-! ## C2: width of accepted records -/

theorem reconcile_length (fill trunc igshort iglong : Bool) (cc : Nat) (values : List String)
    (hshort : fill = true ∨ igshort = true)
    (hlong : trunc = true ∨ iglong = true)
    (hns : ¬(igshort = true ∧ (truncateLong trunc cc (fillShort fill cc values)).length < cc))
    (hnl : ¬(iglong = true ∧ cc < (truncateLong trunc cc (fillShort fill cc values)).length)) :
    (truncateLong trunc cc (fillShort fill cc values)).length = cc := by
  cases fill <;> cases trunc <;> cases igshort <;> cases iglong <;>
    simp_all [fillShort, truncateLong] <;>
    (try split_ifs at *) <;>
    (try simp_all [List.length_take, List.length_append, List.length_replicate]) <;>
    omega

/-- C2 (amended): every record returned by the accept path has exactly
`column_count` fields, provided that fill-short or short-line-ignoring is
enabled and that truncate-long or long-line-ignoring is enabled.  (When both
short-side toggles are off, a short record is returned as-is, and symmetrically
for the long side.) -/
theorem c2_accepted_record_width (s t : KgtkReader) (line : String) (v : List String)
    (hshort : s.fill_short_lines = true ∨ s.ignore_short_lines = true)
    (hlong : s.truncate_long_lines = true ∨ s.ignore_long_lines = true)
    (hacc : processLine s line = .accepted t v) :
    v.length = s.column_count := by
  simp only [processLine] at hacc
  repeat' split at hacc
  all_goals
    first
      | (exact absurd hacc (yelpOutcome_ne_accepted _ _ _ _ _))
      | (cases hacc)
  case _ hns hnl hblank =>
    exact reconcile_length s.fill_short_lines s.truncate_long_lines
      s.ignore_short_lines s.ignore_long_lines s.column_count _ hshort hlong hns hnl

/-- A reader with all default toggles over two columns. -/
def c2OkReader : KgtkReader :=
  { column_names := ["node1", "node2"]
    column_name_map := build_column_name_map ["node1", "node2"]
    column_count := 2 }

theorem c2_witness :
    (c2OkReader.fill_short_lines = true ∨ c2OkReader.ignore_short_lines = true) ∧
    (["a", "b"] : List String).length = c2OkReader.column_count :=
  ⟨Or.inr rfl,
    c2_accepted_record_width c2OkReader _ "a\tb" ["a", "b"] (Or.inr rfl) (Or.inr rfl) rfl⟩

/-- A reader that neither fills nor rejects short lines. -/
def c2BadReader : KgtkReader :=
  { column_names := ["node1", "label", "node2", "id"]
    column_name_map := build_column_name_map ["node1", "label", "node2", "id"]
    column_count := 4
    ignore_short_lines := false }

/-- C2 counterexample: with fill-short and short-line-ignoring both disabled,
the one-field line `a` is accepted as the record `["a"]`, whose length 1
differs from `column_count = 4` — so the claim fails for this configuration of
the four toggles. -/
theorem c2_counterexample :
    c2BadReader.fill_short_lines = false ∧
    c2BadReader.ignore_short_lines = false ∧
    (processLine c2BadReader "a").acceptedValues = some ["a"] ∧
    c2BadReader.column_count = 4 :=
  ⟨rfl, rfl, rfl, rfl⟩

/-! ## C6: fill-short and truncate-long reconciliation -/

theorem reconcile_fill (fill trunc : Bool) (cc : Nat) (values : List String)
    (hfill : fill = true) (hlen : values.length < cc) :
    truncateLong trunc cc (fillShort fill cc values)
      = values ++ List.replicate (cc - values.length) "" := by
  subst hfill
  have h1 : fillShort true cc values = values ++ List.replicate (cc - values.length) "" := by
    unfold fillShort
    exact if_pos ⟨rfl, hlen⟩
  rw [h1]
  unfold truncateLong
  rw [if_neg]
  rintro ⟨-, hcon⟩
  rw [List.length_append, List.length_replicate] at hcon
  omega

theorem reconcile_truncate (fill trunc : Bool) (cc : Nat) (values : List String)
    (htr : trunc = true) (hlen : cc < values.length) :
    truncateLong trunc cc (fillShort fill cc values) = values.take cc := by
  subst htr
  have h1 : fillShort fill cc values = values := by
    unfold fillShort
    rw [if_neg]
    rintro ⟨-, hcon⟩
    omega
  rw [h1]
  unfold truncateLong
  exact if_pos ⟨rfl, hlen⟩

/-- C6: if an accepted line splits into fewer than `column_count` fields and
fill-short is enabled, the accepted record is the original fields followed by
empty strings up to `column_count`; if it splits into more than `column_count`
fields and truncate-long is enabled, the accepted record is exactly the first
`column_count` fields. -/
theorem c6_width_reconciliation (s t : KgtkReader) (line : String) (v : List String)
    (hacc : processLine s line = .accepted t v) :
    (s.fill_short_lines = true →
      (pySplit (pyRstrip line) s.column_separator).length < s.column_count →
      v = pySplit (pyRstrip line) s.column_separator ++
        List.replicate
          (s.column_count - (pySplit (pyRstrip line) s.column_separator).length) "") ∧
    (s.truncate_long_lines = true →
      s.column_count < (pySplit (pyRstrip line) s.column_separator).length →
      v = (pySplit (pyRstrip line) s.column_separator).take s.column_count) := by
  simp only [processLine] at hacc
  repeat' split at hacc
  all_goals
    first
      | (exact absurd hacc (yelpOutcome_ne_accepted _ _ _ _ _))
      | (cases hacc)
  case _ hns hnl hblank =>
    constructor
    · intro hfill hlen
      exact reconcile_fill _ _ _ _ hfill hlen
    · intro htr hlen
      exact reconcile_truncate _ _ _ _ htr hlen

/-- A reader over four columns with both fill-short and truncate-long
enabled. -/
def c6Reader : KgtkReader :=
  { column_names := ["node1", "label", "node2", "id"]
    column_name_map := build_column_name_map ["node1", "label", "node2", "id"]
    column_count := 4
    fill_short_lines := true
    truncate_long_lines := true }

theorem c6_witness :
    (["a", "b", "", ""] : List String) =
      pySplit (pyRstrip "a\tb") c6Reader.column_separator ++
        List.replicate
          (c6Reader.column_count -
            (pySplit (pyRstrip "a\tb") c6Reader.column_separator).length) "" ∧
    (["c", "d", "e", "f"] : List String) =
      (pySplit (pyRstrip "c\td\te\tf\tg\th") c6Reader.column_separator).take
        c6Reader.column_count := by
  constructor
  · exact (c6_width_reconciliation c6Reader _ "a\tb" ["a", "b", "", ""] rfl).1 rfl (by decide)
  · exact (c6_width_reconciliation c6Reader _ "c\td\te\tf\tg\th" ["c", "d", "e", "f"]
      rfl).2 rfl (by decide)

/-! ## C9: to_map builds the positional name-keyed map, last duplicate wins -/

theorem lookup_append_left {β : Type} (l1 l2 : List (String × β)) (a : String) (b : β)
    (h : l1.lookup a = some b) : (l1 ++ l2).lookup a = some b := by
  induction l1 with
  | nil => simp [List.lookup_nil] at h
  | cons p rest ih =>
    obtain ⟨k, v⟩ := p
    rw [List.lookup_cons] at h
    rw [List.cons_append, List.lookup_cons]
    by_cases hak : a = k
    · have hbeq : (a == k) = true := by simp [hak]
      simp only [hbeq] at h ⊢
      exact h
    · have hbeq : (a == k) = false := by simp [hak]
      simp only [hbeq] at h ⊢
      exact ih h

theorem lookup_append_right {β : Type} (l1 l2 : List (String × β)) (a : String)
    (h : l1.lookup a = none) : (l1 ++ l2).lookup a = l2.lookup a := by
  induction l1 with
  | nil => simp
  | cons p rest ih =>
    obtain ⟨k, v⟩ := p
    rw [List.lookup_cons] at h
    rw [List.cons_append, List.lookup_cons]
    by_cases hak : a = k
    · have hbeq : (a == k) = true := by simp [hak]
      simp only [hbeq] at h
      cases h
    · have hbeq : (a == k) = false := by simp [hak]
      simp only [hbeq] at h ⊢
      exact ih h

/-- Looking a name up in the reversed zip of names with values finds the value
at the name's position, provided no later position carries the same name (the
later duplicate would win instead). -/
theorem lookup_reverse_zip (ns vs : List String) (hlen : vs.length = ns.length)
    (i : Nat) (hi : i < ns.length)
    (hdup : ∀ j, i < j → j < ns.length → ns.getD j "" ≠ ns.getD i "") :
    ((ns.zip vs).reverse.lookup (ns.getD i "")) = some (vs.getD i "") := by
  induction ns generalizing vs i with
  | nil => simp at hi
  | cons n ns' ih =>
    cases vs with
    | nil => simp at hlen
    | cons v vs' =>
      rw [List.zip_cons_cons, List.reverse_cons]
      cases i with
      | zero =>
        have hnot : ((ns'.zip vs').reverse.lookup n) = none := by
          rw [← Option.not_isSome_iff_eq_none]
          rw [lookup_isSome_iff_mem_keys]
          intro hmem
          rw [List.map_reverse, List.mem_reverse] at hmem
          rw [List.map_fst_zip ns' vs' (by simp at hlen; omega)] at hmem
          obtain ⟨j, hj, hja⟩ := List.mem_iff_getElem.mp hmem
          refine hdup (j + 1) (by omega) (by simp; omega) ?_
          rw [List.getD_cons_succ, List.getD_cons_zero,
            List.getD_eq_getElem ns' "" hj]
          exact hja
        rw [List.getD_cons_zero, lookup_append_right _ _ _ hnot]
        simp [List.lookup]
      | succ i' =>
        rw [List.getD_cons_succ, List.getD_cons_succ]
        refine lookup_append_left _ _ _ _ ?_
        refine ih vs' (by simp at hlen ⊢; omega) i' (by simp at hi; omega) ?_
        intro j hj hjl
        have := hdup (j + 1) (by omega) (by simp; omega)
        rw [List.getD_cons_succ, List.getD_cons_succ] at this
        exact this

/-- The `to_map` loop succeeds and produces the reversed zip of names with
values whenever the record is no longer than the column list. -/
theorem toMapAux_eq (values names : List String) (acc : List (String × String))
    (h : values.length ≤ names.length) :
    toMapAux values names acc = some ((names.zip values).reverse ++ acc) := by
  induction values generalizing names acc with
  | nil => simp [toMapAux]
  | cons v vs ihv =>
    cases names with
    | nil => simp at h
    | cons n ns =>
      rw [List.zip_cons_cons, List.reverse_cons]
      simp only [toMapAux]
      rw [ihv ns ((n, v) :: acc) (by simp at h ⊢; omega)]
      simp

/-- C9: for a record with exactly `column_count` fields (and the reader's
`column_count` equal to the number of column names, as `open` establishes),
`to_map` succeeds and assigns to each column name the field at that column's
position, a later duplicate column name's value overwriting an earlier one's:
the lookup of the name at position `i` returns the field at position `i`
whenever no later position carries the same name. -/
theorem c9_to_map (s : KgtkReader) (record : List String)
    (hlen : record.length = s.column_count)
    (hcc : s.column_count = s.column_names.length) :
    ∃ result, s.to_map record = some result ∧
      ∀ i, i < s.column_names.length →
        (∀ j, i < j → j < s.column_names.length →
          s.column_names.getD j "" ≠ s.column_names.getD i "") →
        result.lookup (s.column_names.getD i "") = some (record.getD i "") := by
  refine ⟨(s.column_names.zip record).reverse, ?_, ?_⟩
  · unfold KgtkReader.to_map
    rw [toMapAux_eq record s.column_names [] (by omega)]
    simp
  · intro i hi hdup
    exact lookup_reverse_zip s.column_names record (by omega) i hi hdup

/-- A reader with a duplicate column name `a` at positions 0 and 2. -/
def c9Reader : KgtkReader :=
  { column_names := ["a", "b", "a"]
    column_name_map := build_column_name_map ["a", "b", "a"]
    column_count := 3 }

theorem c9_witness :
    (["1", "2", "3"] : List String).length = c9Reader.column_count ∧
    c9Reader.to_map ["1", "2", "3"] = some [("a", "3"), ("b", "2"), ("a", "1")] ∧
    [("a", "3"), ("b", "2"), ("a", "1")].lookup "a" = some "3" ∧
    [("a", "3"), ("b", "2"), ("a", "1")].lookup "b" = some "2" := by
  obtain ⟨result, hres, hprop⟩ := c9_to_map c9Reader ["1", "2", "3"] rfl rfl
  have hcomp : c9Reader.to_map ["1", "2", "3"]
      = some [("a", "3"), ("b", "2"), ("a", "1")] := rfl
  rw [hres] at hcomp
  injection hcomp with hr
  subst hr
  refine ⟨rfl, hres, ?_, ?_⟩
  · have h := hprop 2 (by decide) (by intro j h1 h2; simp [c9Reader] at h2; omega)
    exact h
  · have h := hprop 1 (by decide) ?_
    · exact h
    · intro j h1 h2
      simp only [c9Reader] at h2
      simp at h2
      have hj : j = 2 := by omega
      subst hj
      decide
